import Mathlib

/-!
Verification of the AgentTunnel gateway (test6, Pipeline Enforcement Edition).

The development shallowly embeds the decision engine of `gateway.js` and
`auth/middleware.js`:

* the pipeline state machine (`startPipelineRun`, `validatePipelineStep`,
  `confirmPipelineStep`, the `pipeline/reset` handler),
* the per-tunnel policy evaluator (`validateTunnel`),
* the authenticator (`validateApiKey`, `checkRateLimit`, `authenticate`),
* the orchestrator handlers for `tunnels/create` and `agents/create`,
* the two module-level credential caches and the file watcher.

JavaScript objects are modelled as association lists (`lookupA` / `setA`,
first-binding-wins, update-in-place preserves order, mirroring property
assignment).  JavaScript truthiness of optional strings / booleans / numbers
is modelled explicitly (`jsStr`, `jsBool`, `jsNatOr`).  Machine time is an
explicit parameter: `nowMs` is `Date.now()` in milliseconds, `offMs` the
server timezone's offset `local − UTC` in milliseconds.  Fallible code
returns `Option`.
-/

namespace AgentTunnel

/-- JS object lookup on an association list: first binding wins. -/
def lookupA {κ α : Type} [DecidableEq κ] : List (κ × α) → κ → Option α
  | [], _ => none
  | (k, v) :: rest, key => if k = key then some v else lookupA rest key

/-- JS property assignment `obj[k] = v`: replace the first binding of `k`
in place (keeping its position), or append a fresh binding at the end. -/
def setA {κ α : Type} [DecidableEq κ] : List (κ × α) → κ → α → List (κ × α)
  | [], key, v => [(key, v)]
  | (k, w) :: rest, key, v =>
      if k = key then (key, v) :: rest else (k, w) :: setA rest key v

theorem lookupA_setA_self {κ α : Type} [DecidableEq κ] (m : List (κ × α)) (k : κ) (v : α) :
    lookupA (setA m k v) k = some v := by
  induction m with
  | nil => simp [setA, lookupA]
  | cons p rest ih =>
      obtain ⟨k', w⟩ := p
      by_cases h : k' = k
      · simp [setA, h, lookupA]
      · simp [setA, h, lookupA, ih]

theorem lookupA_setA_ne {κ α : Type} [DecidableEq κ] (m : List (κ × α)) (k k' : κ) (v : α)
    (h : k ≠ k') : lookupA (setA m k v) k' = lookupA m k' := by
  induction m with
  | nil => simp [setA, lookupA, h]
  | cons p rest ih =>
      obtain ⟨k₀, w⟩ := p
      by_cases h0 : k₀ = k
      · subst h0
        simp [setA, lookupA, h]
      · simp [setA, h0, lookupA]
        by_cases h1 : k₀ = k'
        · simp [h1]
        · simp [h1, ih]

/-- JS truthiness of a possibly-absent string: `undefined` and `""` are falsy. -/
def jsStr : Option String → Option String
  | none => none
  | some s => if s = "" then none else some s

/-- JS truthiness of a possibly-absent boolean: `undefined` is falsy. -/
def jsBool : Option Bool → Bool
  | none => false
  | some b => b

/-- JS `x || d` for a possibly-absent number `x`: `undefined` and `0` are falsy. -/
def jsNatOr (x : Option Nat) (d : Nat) : Nat :=
  match x with
  | none => d
  | some n => if n = 0 then d else n

/-- Does `needle` start `hay`? (character-list version used by `hasRun`). -/
def startsList : List Char → List Char → Bool
  | [], _ => true
  | _ :: _, [] => false
  | a :: as, b :: bs => a == b && startsList as bs

/-- Does `needle` occur as a contiguous run inside `hay`? -/
def hasRun (needle : List Char) : List Char → Bool
  | [] => startsList needle []
  | c :: cs => startsList needle (c :: cs) || hasRun needle cs

/-- JS `hay.includes(needle)` on strings. -/
def strIncludes (hay needle : String) : Bool :=
  hasRun needle.data hay.data

/-- The whitespace characters relevant to these policies. -/
def isSpaceChar (c : Char) : Bool :=
  c == ' ' || c == '\t' || c == '\n' || c == '\r'

/-- JS `s.trim()`: strip leading and trailing whitespace. -/
def strTrim (s : String) : String :=
  String.mk ((((s.data.dropWhile isSpaceChar).reverse).dropWhile isSpaceChar).reverse)

/-- JS `s.startsWith(p)`. -/
def strStartsWith (s p : String) : Bool :=
  startsList p.data s.data

/-- Lower-case one ASCII character (JS `toLowerCase` restricted to ASCII). -/
def charLower (c : Char) : Char :=
  if 'A' ≤ c ∧ c ≤ 'Z' then Char.ofNat (c.toNat + 32) else c

/-- JS `s.toLowerCase()` (ASCII). -/
def strLower (s : String) : String :=
  String.mk (s.data.map charLower)

/-- JS `url.split('?')[0]`: the characters before the first `?`. -/
def cleanUrlOf (url : String) : String :=
  String.mk (url.data.takeWhile (fun c => c ≠ '?'))

/-- Little-endian decimal digits, with explicit fuel so the definition is
structural (and hence evaluates inside `decide`). -/
def decDigitsAux : Nat → Nat → List Nat
  | 0, _ => []
  | fuel + 1, n => if n = 0 then [] else (n % 10) :: decDigitsAux fuel (n / 10)

/-- Little-endian decimal digits of a natural number (empty for `0`). -/
def decDigits (n : Nat) : List Nat := decDigitsAux n n

theorem decDigitsAux_fuel (f₁ : Nat) : ∀ f₂ n : Nat, n ≤ f₁ → n ≤ f₂ →
    decDigitsAux f₁ n = decDigitsAux f₂ n := by
  induction f₁ with
  | zero =>
      intro f₂ n h1 _
      have hn : n = 0 := Nat.le_zero.mp h1
      subst hn
      cases f₂ <;> simp [decDigitsAux]
  | succ a ih =>
      intro f₂ n h1 h2
      by_cases hn : n = 0
      · subst hn
        cases f₂ <;> simp [decDigitsAux]
      · cases f₂ with
        | zero => omega
        | succ b =>
            simp only [decDigitsAux, hn, if_neg, not_false_iff]
            have hda : n / 10 ≤ a := by
              have := Nat.div_lt_self (Nat.pos_of_ne_zero hn) (by decide : 1 < 10)
              omega
            have hdb : n / 10 ≤ b := by
              have := Nat.div_lt_self (Nat.pos_of_ne_zero hn) (by decide : 1 < 10)
              omega
            rw [ih b (n / 10) hda hdb]

/-- The defining recurrence of `decDigits`, independent of the fuel. -/
theorem decDigits_eq (n : Nat) :
    decDigits n = if n = 0 then [] else (n % 10) :: decDigits (n / 10) := by
  by_cases hn : n = 0
  · subst hn; simp [decDigits, decDigitsAux]
  · simp only [hn, if_neg, not_false_iff]
    obtain ⟨m, rfl⟩ : ∃ m, n = m + 1 := ⟨n - 1, by omega⟩
    show decDigitsAux (m + 1) (m + 1) = _
    simp only [decDigitsAux, hn, if_neg, not_false_iff]
    have hd : (m + 1) / 10 ≤ m := by
      have := Nat.div_lt_self (Nat.pos_of_ne_zero hn) (by decide : 1 < 10)
      omega
    rw [decDigitsAux_fuel m ((m + 1) / 10) ((m + 1) / 10) hd (le_refl _)]
    rfl

/-- Recombine little-endian decimal digits. -/
def undigits : List Nat → Nat
  | [] => 0
  | d :: ds => d + 10 * undigits ds

theorem undigits_decDigits (n : Nat) : undigits (decDigits n) = n := by
  induction n using Nat.strong_induction_on with
  | _ n ih =>
      by_cases h : n = 0
      · subst h; simp [decDigits, decDigitsAux, undigits]
      · rw [decDigits_eq]
        simp only [h, dif_neg, not_false_iff, undigits]
        rw [ih (n / 10) (Nat.div_lt_self (Nat.pos_of_ne_zero h) (by decide))]
        omega

theorem decDigits_injective : Function.Injective decDigits := by
  intro a b h
  have ha := undigits_decDigits a
  have hb := undigits_decDigits b
  rw [h] at ha
  omega

/-- The decimal digit character for `d < 10` (mirrors `Nat.digitChar` on that range). -/
def decChar (d : Nat) : Char :=
  Char.ofNat (48 + d)

theorem decChar_injective_lt (a b : Nat) (ha : a < 10) (hb : b < 10)
    (h : decChar a = decChar b) : a = b := by
  interval_cases a <;> interval_cases b <;> first | rfl | (exfalso; exact absurd h (by decide))

/-- Decimal string of a natural number, as JS renders a number into a
template string (`` `run_${Date.now()}` ``). -/
def decStr (n : Nat) : String :=
  if n = 0 then "0" else String.mk (((decDigits n).map decChar).reverse)

theorem decDigits_lt_ten (n : Nat) : ∀ d ∈ decDigits n, d < 10 := by
  induction n using Nat.strong_induction_on with
  | _ n ih =>
      by_cases h : n = 0
      · subst h; simp [decDigits, decDigitsAux]
      · rw [decDigits_eq]
        simp only [if_neg h, List.mem_cons]
        intro d hd
        rcases hd with hd | hd
        · subst hd; exact Nat.mod_lt _ (by decide)
        · exact ih (n / 10) (Nat.div_lt_self (Nat.pos_of_ne_zero h) (by decide)) d hd

theorem decDigits_ne_nil (n : Nat) (h : n ≠ 0) : decDigits n ≠ [] := by
  rw [decDigits_eq]
  simp [h]

theorem map_decChar_inj (da db : List Nat) (hda : ∀ d ∈ da, d < 10)
    (hdb : ∀ d ∈ db, d < 10) (h : da.map decChar = db.map decChar) : da = db := by
  induction da generalizing db with
  | nil =>
      cases db with
      | nil => rfl
      | cons x xs => simp at h
  | cons x xs ih =>
      cases db with
      | nil => simp at h
      | cons y ys =>
          simp only [List.map_cons, List.cons.injEq] at h
          obtain ⟨hxy, hrest⟩ := h
          have hx := decChar_injective_lt x y (hda x (by simp)) (hdb y (by simp)) hxy
          have hxs := ih ys (fun d hd => hda d (by simp [hd]))
            (fun d hd => hdb d (by simp [hd])) hrest
          rw [hx, hxs]

theorem decStr_injective : Function.Injective decStr := by
  intro a b h
  by_cases ha : a = 0 <;> by_cases hb : b = 0
  · omega
  · exfalso
    simp only [decStr, ha, if_pos, hb, if_neg, not_false_iff] at h
    have hdata := congrArg String.data h
    simp only [String.mk] at hdata
    have : ((decDigits b).map decChar).reverse = ['0'] := by
      simpa using hdata.symm
    have hmap : (decDigits b).map decChar = ['0'] := by
      have := congrArg List.reverse this
      simpa using this
    cases hdig : decDigits b with
    | nil => exact decDigits_ne_nil b hb hdig
    | cons d ds =>
        rw [hdig] at hmap
        simp only [List.map_cons, List.cons.injEq] at hmap
        obtain ⟨hd0, hds⟩ := hmap
        have hd10 : d < 10 := decDigits_lt_ten b d (by rw [hdig]; simp)
        have hd : d = 0 := by
          have h0 : decChar 0 = '0' := by decide
          exact decChar_injective_lt d 0 hd10 (by decide) (by rw [hd0, h0])
        have hdsnil : ds = [] := by
          simpa using hds
        have : undigits (decDigits b) = 0 := by
          rw [hdig, hd, hdsnil]; simp [undigits]
        rw [undigits_decDigits] at this
        exact hb this
  · exfalso
    simp only [decStr, ha, hb, if_pos, if_neg, not_false_iff] at h
    have hdata := congrArg String.data h
    simp only [String.mk] at hdata
    have : ((decDigits a).map decChar).reverse = ['0'] := by
      simpa using hdata
    have hmap : (decDigits a).map decChar = ['0'] := by
      have := congrArg List.reverse this
      simpa using this
    cases hdig : decDigits a with
    | nil => exact decDigits_ne_nil a ha hdig
    | cons d ds =>
        rw [hdig] at hmap
        simp only [List.map_cons, List.cons.injEq] at hmap
        obtain ⟨hd0, hds⟩ := hmap
        have hd10 : d < 10 := decDigits_lt_ten a d (by rw [hdig]; simp)
        have hd : d = 0 := by
          have h0 : decChar 0 = '0' := by decide
          exact decChar_injective_lt d 0 hd10 (by decide) (by rw [hd0, h0])
        have hdsnil : ds = [] := by
          simpa using hds
        have : undigits (decDigits a) = 0 := by
          rw [hdig, hd, hdsnil]; simp [undigits]
        rw [undigits_decDigits] at this
        exact ha this
  · simp only [decStr, ha, hb, if_neg, not_false_iff] at h
    have hdata := congrArg String.data h
    simp only [String.mk] at hdata
    have hrev := congrArg List.reverse hdata
    simp only [List.reverse_reverse] at hrev
    exact decDigits_injective
      (map_decChar_inj _ _ (decDigits_lt_ten a) (decDigits_lt_ten b) hrev)

/-! ### Data model: tunnels, pipeline definitions, pipeline runs (gateway.js) -/

/-- One pipeline step descriptor (`tunnel.pipeline.steps[i]`). -/
structure StepDef where
  command : String
  description : Option String := none
  deriving Repr, DecidableEq

/-- A tunnel's optional pipeline definition (`tunnel.pipeline`). -/
structure PipelineDef where
  steps : List StepDef
  deriving Repr, DecidableEq

/-- A tunnel policy record as stored in `tunnels.json` / `tunnelsCache`. -/
structure Tunnel where
  description : String := ""
  allowed_methods : List String := []
  allowed_paths : List String := []
  allowed_commands : List String := []
  forbidden_keywords : List String := []
  command_whitelist_mode : String := ""
  pipeline : Option PipelineDef := none
  created_by : Option String := none
  created_at : Option Nat := none
  deriving Repr, DecidableEq

/-- A completed-step record appended to `run.steps_completed`.
`confirmed_at` carries the timestamp (epoch milliseconds) that the ISO
string in the source denotes. -/
structure CompletedStep where
  step : Nat
  command : String
  confirmed_at : Nat
  deriving Repr, DecidableEq

/-- One pipeline run as stored in `pipeline_state.json` / `pipelineStateCache`.
`status` is the literal string the source stores (`"in_progress"`,
`"completed"`, `"failed"`, `"aborted"`). -/
structure Run where
  pipeline : String
  agent : String
  started_at : Nat
  current_step : Nat
  status : String
  steps_completed : List CompletedStep
  completed_at : Option Nat := none
  aborted_at : Option Nat := none
  deriving Repr, DecidableEq

/-- The tunnel registry (`tunnelsCache`): JSON object keyed by tunnel name. -/
abbrev TunnelMap := List (String × Tunnel)

/-- The pipeline run store (`pipelineStateCache`): JSON object keyed by run id. -/
abbrev RunMap := List (String × Run)

/-- The result object returned by `validatePipelineStep` / `validateTunnel`;
optional fields model JS fields that are absent on some branches. -/
structure VResult where
  allowed : Bool
  error : Option String := none
  expected : Option String := none
  received : Option String := none
  step : Option StepDef := none
  stepIndex : Option Nat := none
  deriving Repr, DecidableEq

/-- Denial result carrying only an `error` field. -/
def vDeny (e : String) : VResult := { allowed := false, error := some e }

/-! ### Pipeline state machine (gateway.js lines 86-161, 396-406) -/

/-- `startPipelineRun(pipelineName, agentName)` (gateway.js 86-102).
`nowMs` is `Date.now()`; the ISO `started_at` is modelled by the same
instant in epoch milliseconds.  Returns `none` for the JS `null` return,
else the new run id and the updated store. -/
def startPipelineRun (tunnels : TunnelMap) (st : RunMap) (pipelineName agentName : String)
    (nowMs : Nat) : Option (String × RunMap) :=
  match lookupA tunnels pipelineName with
  | none => none
  | some tunnel =>
      match tunnel.pipeline with
      | none => none
      | some _ =>
          let runId := "run_" ++ decStr nowMs
          some (runId, setA st runId
            { pipeline := pipelineName
              agent := agentName
              started_at := nowMs
              current_step := 0
              status := "in_progress"
              steps_completed := [] })

/-- `validatePipelineStep(runId, command)` (gateway.js 104-134).
The branch where all steps are already completed mutates the run
(coerces `status := 'completed'`) before denying, so the function returns
the updated store alongside the result. -/
def validatePipelineStep (tunnels : TunnelMap) (st : RunMap) (runId command : String)
    (nowMs : Nat) : VResult × RunMap :=
  match lookupA st runId with
  | none =>
      (vDeny ("Pipeline run '" ++ runId ++ "' not found. Start pipeline first."), st)
  | some run =>
      if run.status = "completed" then
        (vDeny ("Pipeline run '" ++ runId ++ "' already completed."), st)
      else if run.status = "failed" then
        (vDeny ("Pipeline run '" ++ runId ++ "' failed. Start a new run."), st)
      else
        match (lookupA tunnels run.pipeline).bind (fun t => t.pipeline) with
        | none => (vDeny "Pipeline config no longer exists.", st)
        | some p =>
            match p.steps.get? run.current_step with
            | none =>
                (vDeny "All pipeline steps already completed.",
                 setA st runId { run with status := "completed", completed_at := some nowMs })
            | some expectedStep =>
                if strTrim command ≠ strTrim expectedStep.command then
                  ({ allowed := false
                     error := some ("Wrong step. Expected step " ++
                       decStr (run.current_step + 1) ++ ": '" ++ expectedStep.command ++
                       "'. Cannot skip or reorder.")
                     expected := some expectedStep.command
                     received := some command }, st)
                else
                  ({ allowed := true, step := some expectedStep,
                     stepIndex := some run.current_step }, st)

/-- `confirmPipelineStep(runId)` (gateway.js 136-161).  The source throws a
`TypeError` when the tunnel, its pipeline, or the current step is missing;
those paths are modelled as `none`.  A missing run returns the store
unchanged (the early `return`). -/
def confirmPipelineStep (tunnels : TunnelMap) (st : RunMap) (runId : String)
    (nowMs : Nat) : Option RunMap :=
  match lookupA st runId with
  | none => some st
  | some run =>
      match (lookupA tunnels run.pipeline).bind (fun t => t.pipeline) with
      | none => none
      | some p =>
          match p.steps.get? run.current_step with
          | none => none
          | some completedStep =>
              let run' : Run :=
                { run with
                  steps_completed := run.steps_completed ++
                    [{ step := run.current_step + 1
                       command := completedStep.command
                       confirmed_at := nowMs }]
                  current_step := run.current_step + 1 }
              let run'' : Run :=
                if run'.current_step ≥ p.steps.length then
                  { run' with status := "completed", completed_at := some nowMs }
                else run'
              some (setA st runId run'')

/-- The `POST /orchestrator/pipeline/reset` handler body (gateway.js 396-406):
sets `status := 'aborted'` and stamps `aborted_at` when the run exists. -/
def resetPipelineRun (st : RunMap) (runId : String) (nowMs : Nat) : RunMap :=
  match lookupA st runId with
  | none => st
  | some run => setA st runId { run with status := "aborted", aborted_at := some nowMs }

/-- One worker pipeline submission as the server executes it
(gateway.js 195-202 dispatch, then 468-469 confirm): validate, and confirm
exactly when the validator allowed.  When `confirmPipelineStep` would throw
(never reachable after an allow under a stable config) the store from the
validation phase is kept. -/
def submitPipelineStep (tunnels : TunnelMap) (st : RunMap) (runId command : String)
    (nowMs : Nat) : VResult × RunMap :=
  let (v, st₁) := validatePipelineStep tunnels st runId command nowMs
  if v.allowed then (v, (confirmPipelineStep tunnels st₁ runId nowMs).getD st₁)
  else (v, st₁)

/-- The 403 denial body built by `startGateway` (gateway.js 456-463).
`expected_command` is included iff `validation.expected` is JS-truthy,
i.e. present and non-empty. -/
structure DenialBody where
  error : String
  reason : Option String
  tunnel : String
  agent : String
  expected_command : Option String
  deriving Repr, DecidableEq

def buildDenialBody (validation : VResult) (tunnelName agentName : String) : DenialBody :=
  { error := "Access Denied by Tunnel Policy"
    reason := validation.error
    tunnel := tunnelName
    agent := agentName
    expected_command := jsStr validation.expected }

/-! ### Standard tunnel validation (gateway.js 165-234) -/

/-- The parsed JSON body of a worker request; the evaluator only examines
`command`, `url` and `run_id`. -/
structure Payload where
  command : Option String := none
  url : Option String := none
  run_id : Option String := none
  deriving Repr, DecidableEq

/-- `payload.command || payload.url || ''` (gateway.js 192): empty strings
fall through, absent fields fall through. -/
def extractCommand (p : Payload) : String :=
  match jsStr p.command with
  | some c => c
  | none =>
      match jsStr p.url with
      | some u => u
      | none => ""

/-- The keyword check loop (gateway.js 219-225). -/
def keywordCheck (keywords : List String) (command : String) : VResult :=
  match keywords.find? (fun kw => strIncludes (strLower command) (strLower kw)) with
  | some kw => vDeny ("Forbidden keyword '" ++ kw ++ "' detected")
  | none => { allowed := true }

/-- The whitelist membership test (gateway.js 210-213). -/
def whitelistPass (allowed_commands : List String) (command : String) : Bool :=
  allowed_commands.any (fun allowed =>
    strTrim command = strTrim allowed ||
      strStartsWith (strTrim command) (strTrim allowed ++ " "))

/-- The body-policy part of `validateTunnel` (gateway.js 188-227), applied to
a POST/PUT request whose raw body parsed to `payload` (`none` models invalid
JSON).  Returns the decision and the possibly-updated run store (mutated only
on the pipeline-dispatch path). -/
def validateBody (tunnels : TunnelMap) (runs : RunMap) (tunnel : Tunnel)
    (payload : Option Payload) (nowMs : Nat) : VResult × RunMap :=
  match payload with
  | none => (vDeny "Invalid JSON payload", runs)
  | some p =>
      let command := extractCommand p
      match tunnel.pipeline, jsStr p.run_id with
      | some _, some rid => validatePipelineStep tunnels runs rid command nowMs
      | _, _ =>
          if tunnel.command_whitelist_mode = "strict" then
            if tunnel.allowed_commands = [] then
              (vDeny "No commands allowed in strict mode", runs)
            else if ¬ whitelistPass tunnel.allowed_commands command then
              (vDeny ("Command '" ++ command ++ "' not in whitelist"), runs)
            else (keywordCheck tunnel.forbidden_keywords command, runs)
          else (keywordCheck tunnel.forbidden_keywords command, runs)

/-- `validateTunnel(req, tunnelName)` (gateway.js 165-234): tunnel existence,
method, path, then body policy for POST/PUT.  `url` is the raw request URL;
`payload` is the parsed body (consulted only for POST/PUT). -/
def validateTunnel (tunnels : TunnelMap) (runs : RunMap) (tunnelName : String)
    (method url : String) (payload : Option Payload) (nowMs : Nat) : VResult × RunMap :=
  match lookupA tunnels tunnelName with
  | none => (vDeny "Invalid Tunnel Config", runs)
  | some tunnel =>
      if ¬ (tunnel.allowed_methods.contains "*" || tunnel.allowed_methods.contains method) then
        (vDeny ("Method " ++ method ++ " not allowed"), runs)
      else
        let cleanUrl := cleanUrlOf url
        if tunnel.allowed_paths ≠ [] ∧
            ¬ tunnel.allowed_paths.any (fun p => strStartsWith cleanUrl p) then
          (vDeny ("Path " ++ cleanUrl ++ " not allowed"), runs)
        else if method = "POST" ∨ method = "PUT" then
          validateBody tunnels runs tunnel payload nowMs
        else ({ allowed := true }, runs)

/-! ### Authenticator (auth/middleware.js) -/

/-- One credential record.  The `keys` sub-object of `api_keys.json` maps key
strings to such records; `active` is optional because the record written by
`agents/create` carries no such field. -/
structure KeyData where
  name : String := ""
  tier : String := ""
  tunnel : Option String := none
  dailyLimit : Nat := 0
  active : Option Bool := none
  createdAt : Option Nat := none
  createdBy : Option String := none
  deriving Repr, DecidableEq

/-- The usage log: key → (UTC day index → request count). -/
abbrev Usage := List (String × List (Nat × Nat))

/-- Day-bucket lookup in the usage log (0 when either level is absent). -/
def usageCount (u : Usage) (k : String) (day : Nat) : Nat :=
  match lookupA u k with
  | none => 0
  | some m => (lookupA m day).getD 0

/-- Overwrite one day bucket for one key (`usageCache[apiKey][today] = n`). -/
def setUsage (u : Usage) (k : String) (day : Nat) (n : Nat) : Usage :=
  setA u k (setA ((lookupA u k).getD []) day n)

theorem usageCount_setUsage_self (u : Usage) (k : String) (day n : Nat) :
    usageCount (setUsage u k day n) k day = n := by
  unfold usageCount setUsage
  rw [lookupA_setA_self]
  show (lookupA (setA ((lookupA u k).getD []) day n) day).getD 0 = n
  rw [lookupA_setA_self]
  rfl

/-- `getTodayKey()` (middleware.js 36-38): the current UTC calendar day,
modelled as the day index `nowMs / 86400000` that the `YYYY-MM-DD` string
denotes. -/
def todayKey (nowMs : Nat) : Nat := nowMs / 86400000

/-- `new Date(new Date().setHours(24, 0, 0, 0))` (middleware.js 75):
`setHours` works in the server's LOCAL timezone, so this is the next local
midnight, expressed (as `toISOString` does) in epoch milliseconds UTC.
`offMs` is `local − UTC` in milliseconds. -/
def nextLocalMidnightMs (nowMs : Nat) (offMs : Int) : Int :=
  ((((nowMs : Int) + offMs).fdiv 86400000) + 1) * 86400000 - offMs

/-- Midnight UTC of the next day, the instant the spec says the
`X-RateLimit-Reset` header carries. -/
def nextUtcMidnightMs (nowMs : Nat) : Int :=
  ((nowMs : Int).fdiv 86400000 + 1) * 86400000

/-- Result of `validateApiKey` (middleware.js 40-53). -/
inductive KeyValidation
  | invalid (error : String)
  | valid (keyData : KeyData)
  deriving Repr, DecidableEq

/-- `validateApiKey(apiKey)` (middleware.js 40-53), evaluated against the
`keys` sub-object of the middleware's cached credential file. -/
def validateApiKey (keys : List (String × KeyData)) (apiKey : String) : KeyValidation :=
  match lookupA keys apiKey with
  | none => .invalid "Invalid API key"
  | some keyData =>
      if ¬ jsBool keyData.active then .invalid "API key has been revoked"
      else .valid keyData

/-- Result object of `checkRateLimit` (middleware.js 55-80).  `resetAtMs` is
the epoch instant denoted by the ISO-8601 `resetAt` string. -/
structure RateCheck where
  allowed : Bool
  usage : Nat
  limit : Nat
  resetAtMs : Option Int := none
  deriving Repr, DecidableEq

/-- `checkRateLimit(apiKey, keyData)` (middleware.js 55-80).  Initialises the
missing buckets to 0 (a mutation of `usageCache`), then compares the current
count against `keyData.dailyLimit`. -/
def checkRateLimit (u : Usage) (apiKey : String) (keyData : KeyData)
    (nowMs : Nat) (offMs : Int) : RateCheck × Usage :=
  let today := todayKey nowMs
  let u' := setUsage u apiKey today (usageCount u apiKey today)
  let currentUsage := usageCount u' apiKey today
  if currentUsage ≥ keyData.dailyLimit then
    ({ allowed := false, usage := currentUsage, limit := keyData.dailyLimit
       resetAtMs := some (nextLocalMidnightMs nowMs offMs) }, u')
  else
    ({ allowed := true, usage := currentUsage, limit := keyData.dailyLimit }, u')

/-- `incrementUsage(apiKey)` (middleware.js 82-96), sans the batched
persistence (disk writes do not change the in-memory counters). -/
def incrementUsage (u : Usage) (apiKey : String) (nowMs : Nat) : Usage :=
  let today := todayKey nowMs
  setUsage u apiKey today (usageCount u apiKey today + 1)

/-- The caller record attached as `req.client` (middleware.js 149-156). -/
structure Client where
  apiKey : String
  name : String
  tier : String
  tunnel : Option String
  usage : Nat
  limit : Nat
  deriving Repr, DecidableEq

/-- What `authenticate` does with a request: send a denial response, or call
`next()` with `req.client` attached and the rate-limit headers set. -/
inductive AuthResult
  | response (status : Nat) (error : String) (message : String)
      (rlLimit : Option Nat) (rlRemaining : Option Nat) (rlResetMs : Option Int)
  | proceed (client : Client) (rlLimit rlRemaining : Nat)
  deriving Repr, DecidableEq

/-- `authenticate(req, res, next)` (middleware.js 102-163), as a function of
the middleware's cached `keys` sub-object, the usage log, and the request's
`x-api-key` header. -/
def authenticate (keys : List (String × KeyData)) (u : Usage) (header : Option String)
    (nowMs : Nat) (offMs : Int) : AuthResult × Usage :=
  match jsStr header with
  | none =>
      (.response 401 "Authentication required" "Missing x-api-key header" none none none, u)
  | some apiKey =>
      match validateApiKey keys apiKey with
      | .invalid e => (.response 401 "Authentication failed" e none none none, u)
      | .valid keyData =>
          let (rc, u') := checkRateLimit u apiKey keyData nowMs offMs
          if ¬ rc.allowed then
            (.response 429 "Rate limit exceeded" "Daily rate limit exceeded"
              (some rc.limit) (some 0) rc.resetAtMs, u')
          else
            let u'' := incrementUsage u' apiKey nowMs
            (.proceed
              { apiKey := apiKey, name := keyData.name, tier := keyData.tier
                tunnel := keyData.tunnel, usage := rc.usage, limit := rc.limit }
              rc.limit (rc.limit - rc.usage - 1), u'')

/-- The gateway's request routing before authentication (gateway.js 419-442):
`OPTIONS` requests and `GET /status` (exact URL match) are answered without
calling `authenticate`; every other request goes through it. -/
def bypassesAuth (method url : String) : Bool :=
  method == "OPTIONS" || url == "/status"

/-! ### Orchestrator API handlers (gateway.js 267-342) -/

/-- Observable effects emitted by an orchestrator handler, in order. -/
inductive GwEvent
  | persistTunnels (t : TunnelMap)
  | persistApiKeys (k : List (String × KeyData))
  | respond (status : Nat)
  deriving DecidableEq

/-- The parsed body of `POST /orchestrator/tunnels/create`; every field the
handler destructures.  `none` models an absent (or JSON `null`) member. -/
structure CreatePayload where
  name : Option String := none
  description : Option String := none
  allowed_methods : Option (List String) := none
  allowed_paths : Option (List String) := none
  allowed_commands : Option (List String) := none
  forbidden_keywords : Option (List String) := none
  pipeline : Option PipelineDef := none
  deriving Repr, DecidableEq

/-- The `tunnels/create` handler (gateway.js 267-289).  `payload = none`
models a body that failed to parse (the `.catch` path).  Returns the new
tunnel registry and the emitted effects in order. -/
def handleTunnelsCreate (tunnels : TunnelMap) (payload : Option CreatePayload)
    (nowMs : Nat) : TunnelMap × List GwEvent :=
  match payload with
  | none => (tunnels, [.respond 400])
  | some p =>
      match jsStr p.name with
      | none => (tunnels, [.respond 400])
      | some name =>
          let t : Tunnel :=
            { description := (jsStr p.description).getD ("Worker tunnel: " ++ name)
              allowed_methods := p.allowed_methods.getD ["GET", "POST"]
              allowed_paths := p.allowed_paths.getD []
              forbidden_keywords := p.forbidden_keywords.getD []
              allowed_commands := p.allowed_commands.getD []
              command_whitelist_mode := "strict"
              pipeline := p.pipeline
              created_by := some "orchestrator"
              created_at := some nowMs }
          let tunnels' := setA tunnels name t
          (tunnels', [.persistTunnels tunnels', .respond 201])

/-- The parsed body of `POST /orchestrator/agents/create`. -/
structure AgentCreatePayload where
  name : Option String := none
  tunnel : Option String := none
  dailyLimit : Option Nat := none
  deriving Repr, DecidableEq

/-- The generated worker key `` `worker_${Date.now()}_${random-token}` ``
(gateway.js 322). -/
def workerApiKey (nowMs : Nat) (rand : String) : String :=
  "worker_" ++ decStr nowMs ++ "_" ++ rand

/-- The credential record the `agents/create` handler writes (gateway.js 323).
Note there is no `active` member. -/
def workerKeyData (name tunnel : String) (dailyLimit : Option Nat) (nowMs : Nat) : KeyData :=
  { name := name
    tier := "worker"
    tunnel := some tunnel
    dailyLimit := jsNatOr dailyLimit 1000
    active := none
    createdAt := some nowMs
    createdBy := some "orchestrator" }

/-- The `agents/create` handler (gateway.js 316-330).  It writes the new
record into the GATEWAY's flat key map (`apiKeysCache[apiKey] = …`, the
top-level of `api_keys.json`), not into a `keys` sub-object.  Returns the
new gateway key map, the effects, and the issued key (when created). -/
def handleAgentsCreate (tunnels : TunnelMap) (gwKeys : List (String × KeyData))
    (payload : Option AgentCreatePayload) (nowMs : Nat) (rand : String) :
    List (String × KeyData) × List GwEvent × Option String :=
  match payload with
  | none => (gwKeys, [.respond 400], none)
  | some p =>
      match jsStr p.name, jsStr p.tunnel with
      | some name, some tunnel =>
          match lookupA tunnels tunnel with
          | none => (gwKeys, [.respond 404], none)
          | some _ =>
              let apiKey := workerApiKey nowMs rand
              let gwKeys' := setA gwKeys apiKey (workerKeyData name tunnel p.dailyLimit nowMs)
              (gwKeys', [.persistApiKeys gwKeys', .respond 201], some apiKey)
      | _, _ => (gwKeys, [.respond 400], none)

/-! ### The two credential caches and the file watcher
(gateway.js 32-33, 48-56, 80; middleware.js 13-22) -/

/-- The credential file as each module parses it: `gateway.js` uses the
top-level bindings (`apiKeysCache[apiKey]`, `Object.entries(apiKeysCache)`),
while `middleware.js` reads the `keys` sub-object (`keys.keys[apiKey]`). -/
structure CredFile where
  topLevel : List (String × KeyData)
  keysSub : List (String × KeyData)
  deriving Repr, DecidableEq

/-- The in-memory caches: the gateway module's `apiKeysCache` and the
middleware module's separate `apiKeysCache` (which caches the parsed file
once and is never invalidated). -/
structure AuthSys where
  file : CredFile
  gwCache : List (String × KeyData)
  mwCache : Option (List (String × KeyData))
  deriving Repr, DecidableEq

/-- An out-of-band edit of `api_keys.json`. -/
def editCredFile (s : AuthSys) (f : CredFile) : AuthSys :=
  { s with file := f }

/-- The `fs.watchFile` callback (gateway.js 80): re-reads the file into the
GATEWAY's cache.  The middleware's cache is untouched. -/
def watcherReload (s : AuthSys) : AuthSys :=
  { s with gwCache := s.file.topLevel }

/-- `loadApiKeys()` in middleware.js 16-22: parse the file only when the
module-level cache is still null; afterwards always return the cache. -/
def mwLoadApiKeys (s : AuthSys) : List (String × KeyData) × AuthSys :=
  match s.mwCache with
  | some store => (store, s)
  | none => (s.file.keysSub, { s with mwCache := some s.file.keysSub })

/-- One authenticated request against the live system: the middleware
resolves its key store via `loadApiKeys` and runs `authenticate`. -/
def sysAuthenticate (s : AuthSys) (u : Usage) (header : Option String)
    (nowMs : Nat) (offMs : Int) : (AuthResult × Usage) × AuthSys :=
  let (store, s') := mwLoadApiKeys s
  (authenticate store u header nowMs offMs, s')


/-! ### Concrete fixtures used by witnesses and counterexamples -/

/-- A pipeline tunnel like the spec's `Deploy` example. -/
def deployTunnel : Tunnel :=
  { description := "deploy"
    allowed_methods := ["POST"]
    allowed_paths := []
    allowed_commands := []
    forbidden_keywords := []
    command_whitelist_mode := "strict"
    pipeline := some { steps :=
      [ { command := "git pull origin main" }
      , { command := "npm install" } ] } }

def deployTunnels : TunnelMap := [("Deploy", deployTunnel)]

/-- A run of `Deploy` that the orchestrator has aborted at step 0. -/
def abortedRun : Run :=
  { pipeline := "Deploy", agent := "worker-1", started_at := 1000
    current_step := 0, status := "aborted", steps_completed := []
    aborted_at := some 2000 }

def abortedState : RunMap := [("run_1000", abortedRun)]

/-- A run of `Deploy` still in progress at step 0. -/
def inProgressRun : Run :=
  { pipeline := "Deploy", agent := "worker-1", started_at := 1000
    current_step := 0, status := "in_progress", steps_completed := [] }

def inProgressState : RunMap := [("run_1000", inProgressRun)]

/-- A pipeline tunnel whose single step has the empty string as command. -/
def emptyStepTunnel : Tunnel :=
  { allowed_methods := ["POST"]
    command_whitelist_mode := "strict"
    pipeline := some { steps := [ { command := "" } ] } }

def emptyStepTunnels : TunnelMap := [("T", emptyStepTunnel)]

def emptyStepRun : Run :=
  { pipeline := "T", agent := "w", started_at := 0
    current_step := 0, status := "in_progress", steps_completed := [] }

def emptyStepState : RunMap := [("run_0", emptyStepRun)]

/-- The credential record for the C3/C5 fixtures: an active worker key. -/
def kdActive : KeyData :=
  { name := "w", tier := "worker", tunnel := some "Deploy"
    dailyLimit := 5, active := some true }

def kdRevoked : KeyData := { kdActive with active := some false }

def file0 : CredFile := { topLevel := [], keysSub := [("key1", kdActive)] }

def file1 : CredFile := { topLevel := [], keysSub := [("key1", kdRevoked)] }

def sys0 : AuthSys := { file := file0, gwCache := [], mwCache := none }

/-! ### Claims -/

/-- Claim C1.  The claim states that every run whose status is `completed`,
`aborted` or `failed` rejects all further step submissions without mutation.
`validatePipelineStep` checks only `completed` and `failed` (gateway.js
107-108); an ABORTED run falls through, so a submission matching the
expected command is allowed and the subsequent confirmation mutates the run:
`current_step` advances from 0 to 1 and a record is appended to
`steps_completed`.  This theorem evaluates the code on that failing input. -/
theorem C1_aborted_run_accepts_submission :
    abortedRun.status = "aborted" ∧
    (validatePipelineStep deployTunnels abortedState "run_1000"
        "git pull origin main" 3000).1.allowed = true ∧
    lookupA (submitPipelineStep deployTunnels abortedState "run_1000"
        "git pull origin main" 3000).2 "run_1000" =
      some { pipeline := "Deploy", agent := "worker-1", started_at := 1000
             current_step := 1, status := "aborted"
             steps_completed :=
               [{ step := 1, command := "git pull origin main", confirmed_at := 3000 }]
             aborted_at := some 2000 } ∧
    (validatePipelineStep deployTunnels
        [("run_1000", { abortedRun with status := "completed" })] "run_1000"
        "git pull origin main" 3000).1.allowed = false ∧
    (validatePipelineStep deployTunnels
        [("run_1000", { abortedRun with status := "failed" })] "run_1000"
        "git pull origin main" 3000).1.allowed = false := by
  decide

/-- Claim C3.  The claim states that after the credential file is modified
the in-memory store used for authentication is replaced, so subsequent
requests are authenticated against the new contents.  In the code the
`fs.watchFile` callback reloads only the GATEWAY module's `apiKeysCache`;
the middleware module authenticates against its own cache, which is filled
once and never invalidated.  Failing input: key `key1` is active in the
initial file, a first request authenticates (filling the middleware cache),
the file is rewritten with `active: false` and the watcher fires — yet the
second request still succeeds, although `validateApiKey` against the new
file contents would deny it as revoked. -/
theorem C3_watcher_does_not_refresh_auth_store :
    (sysAuthenticate sys0 [] (some "key1") 0 0).1.1 =
      .proceed { apiKey := "key1", name := "w", tier := "worker"
                 tunnel := some "Deploy", usage := 0, limit := 5 } 5 4 ∧
    (sysAuthenticate
        (watcherReload (editCredFile (sysAuthenticate sys0 [] (some "key1") 0 0).2 file1))
        [] (some "key1") 0 0).1.1 =
      .proceed { apiKey := "key1", name := "w", tier := "worker"
                 tunnel := some "Deploy", usage := 0, limit := 5 } 5 4 ∧
    validateApiKey file1.keysSub "key1" = .invalid "API key has been revoked" ∧
    (watcherReload (editCredFile (sysAuthenticate sys0 [] (some "key1") 0 0).2 file1)).gwCache
      = file1.topLevel := by
  decide

/-- Claim C4 (counterexample).  The claim states that any two `StartRun`
calls in one process return distinct, strictly increasing run ids.  The id
is `` `run_${Date.now()}` ``, so two calls inside the same millisecond
return the SAME id — here both calls at `Date.now() = 1000` return
`run_1000`, and the second overwrites the first run's record (the agent
changes from `a` to `b`). -/
theorem C4_same_millisecond_collision :
    (startPipelineRun deployTunnels [] "Deploy" "a" 1000).map Prod.fst = some "run_1000" ∧
    (startPipelineRun deployTunnels
        ((startPipelineRun deployTunnels [] "Deploy" "a" 1000).getD ("", [])).2
        "Deploy" "b" 1000).map Prod.fst = some "run_1000" ∧
    (lookupA ((startPipelineRun deployTunnels
        ((startPipelineRun deployTunnels [] "Deploy" "a" 1000).getD ("", [])).2
        "Deploy" "b" 1000).getD ("", [])).2 "run_1000").map Run.agent = some "b" := by
  decide

theorem string_append_left_cancel {a b c : String} (h : a ++ b = a ++ c) : b = c := by
  have hd := congrArg String.data h
  simp only [String.data_append] at hd
  have h2 := List.append_cancel_left hd
  cases b
  cases c
  exact congrArg String.mk h2

/-- Characterization of a successful `startPipelineRun`: the returned id is
`run_` followed by the decimal start millisecond, and the store gains the
fresh record under that id. -/
theorem startPipelineRun_eq_some {tunnels : TunnelMap} {st : RunMap}
    {p a : String} {t : Nat} {rid : String} {st' : RunMap}
    (h : startPipelineRun tunnels st p a t = some (rid, st')) :
    rid = "run_" ++ decStr t ∧
    st' = setA st rid
      { pipeline := p, agent := a, started_at := t, current_step := 0
        status := "in_progress", steps_completed := [] } := by
  unfold startPipelineRun at h
  cases hT : lookupA tunnels p with
  | none => rw [hT] at h; exact absurd h (by simp)
  | some tun =>
      rw [hT] at h
      dsimp only at h
      cases hP : tun.pipeline with
      | none => rw [hP] at h; exact absurd h (by simp)
      | some q =>
          rw [hP] at h
          dsimp only at h
          simp only [Option.some.injEq, Prod.mk.injEq] at h
          obtain ⟨hrid, hst⟩ := h
          subst hrid
          exact ⟨rfl, hst.symm⟩

/-- Claim C4 (amended).  Run ids embed the start millisecond: when the
second `startPipelineRun` call happens at a strictly later millisecond, the
two ids are distinct, and the records they name carry strictly increasing
start timestamps.  (Calls within the same millisecond collide, see the
counterexample.) -/
theorem C4_run_ids_distinct_across_milliseconds
    (tunnels : TunnelMap) (st₁ st₂ st₃ : RunMap) (p₁ a₁ p₂ a₂ : String)
    (t₁ t₂ : Nat) (rid₁ rid₂ : String)
    (h₁ : startPipelineRun tunnels st₁ p₁ a₁ t₁ = some (rid₁, st₂))
    (h₂ : startPipelineRun tunnels st₂ p₂ a₂ t₂ = some (rid₂, st₃))
    (hlt : t₁ < t₂) :
    rid₁ ≠ rid₂ ∧
    (∃ r₁, lookupA st₂ rid₁ = some r₁ ∧ r₁.started_at = t₁) ∧
    (∃ r₂, lookupA st₃ rid₂ = some r₂ ∧ r₂.started_at = t₂) := by
  obtain ⟨hrid₁, hst₂⟩ := startPipelineRun_eq_some h₁
  obtain ⟨hrid₂, hst₃⟩ := startPipelineRun_eq_some h₂
  refine ⟨?_, ?_, ?_⟩
  · rw [hrid₁, hrid₂]
    intro hEq
    have := decStr_injective (string_append_left_cancel hEq)
    omega
  · exact ⟨_, by rw [hst₂]; exact lookupA_setA_self _ _ _, rfl⟩
  · exact ⟨_, by rw [hst₃]; exact lookupA_setA_self _ _ _, rfl⟩

/-- Witness for `C4_run_ids_distinct_across_milliseconds` at
`t₁ = 1, t₂ = 2` on the `Deploy` fixture. -/
theorem C4_run_ids_witness :
    ("run_" ++ decStr 1) ≠ ("run_" ++ decStr 2) := by
  have h := C4_run_ids_distinct_across_milliseconds deployTunnels []
    (setA [] ("run_" ++ decStr 1)
      { pipeline := "Deploy", agent := "a", started_at := 1
        current_step := 0, status := "in_progress", steps_completed := [] })
    (setA (setA [] ("run_" ++ decStr 1)
      { pipeline := "Deploy", agent := "a", started_at := 1
        current_step := 0, status := "in_progress", steps_completed := [] })
      ("run_" ++ decStr 2)
      { pipeline := "Deploy", agent := "b", started_at := 2
        current_step := 0, status := "in_progress", steps_completed := [] })
    "Deploy" "a" "Deploy" "b" 1 2 ("run_" ++ decStr 1) ("run_" ++ decStr 2)
    rfl rfl (by decide)
  exact h.1

/-- Claim C7 (counterexample).  The claim states that every wrong-command
denial for an in-progress run carries the `expected_command` field.  The
gateway builds the 403 body with
`...(validation.expected ? { expected_command: validation.expected } : {})`,
and the empty string is falsy in JS: for a pipeline whose current step has
command `""`, a mismatching submission is denied, yet the 403 body carries
NO `expected_command` field. -/
theorem C7_empty_expected_command_field_missing :
    (validatePipelineStep emptyStepTunnels emptyStepState "run_0" "x" 5).1.allowed = false ∧
    (validatePipelineStep emptyStepTunnels emptyStepState "run_0" "x" 5).1.expected = some "" ∧
    (buildDenialBody (validatePipelineStep emptyStepTunnels emptyStepState "run_0" "x" 5).1
        "T" "w").expected_command = none := by
  decide

/-- Claim C7 (amended).  For an in-progress run, a submission whose trimmed
command differs from the trimmed expected command is denied, nothing in the
run store changes (neither at validation nor after the full submission
path, so the run never advances), the result carries the expected command,
and — provided the expected command is a non-empty string — the 403 body
includes `expected_command` with that value. -/
theorem C7_wrong_command_denied_without_mutation
    (tunnels : TunnelMap) (st : RunMap) (runId command tn agentName : String)
    (nowMs : Nat) (r : Run) (t : Tunnel) (p : PipelineDef) (est : StepDef)
    (hr : lookupA st runId = some r)
    (hs : r.status = "in_progress")
    (ht : lookupA tunnels r.pipeline = some t)
    (hp : t.pipeline = some p)
    (hstep : p.steps.get? r.current_step = some est)
    (hne : strTrim command ≠ strTrim est.command) :
    (validatePipelineStep tunnels st runId command nowMs).1.allowed = false ∧
    (validatePipelineStep tunnels st runId command nowMs).2 = st ∧
    (validatePipelineStep tunnels st runId command nowMs).1.expected = some est.command ∧
    (validatePipelineStep tunnels st runId command nowMs).1.received = some command ∧
    (submitPipelineStep tunnels st runId command nowMs).2 = st ∧
    (est.command ≠ "" →
      (buildDenialBody (validatePipelineStep tunnels st runId command nowMs).1
          tn agentName).expected_command = some est.command) := by
  have hv : validatePipelineStep tunnels st runId command nowMs =
      ({ allowed := false
         error := some ("Wrong step. Expected step " ++ decStr (r.current_step + 1) ++
           ": '" ++ est.command ++ "'. Cannot skip or reorder.")
         expected := some est.command
         received := some command }, st) := by
    unfold validatePipelineStep
    rw [hr]
    dsimp only
    rw [hs]
    simp only [String.reduceEq, if_false, reduceIte]
    rw [ht]
    dsimp only [Option.bind]
    rw [hp]
    dsimp only
    rw [hstep]
    dsimp only
    rw [if_pos hne]
  refine ⟨by rw [hv], by rw [hv], by rw [hv], by rw [hv], ?_, ?_⟩
  · unfold submitPipelineStep
    rw [hv]
    dsimp only
    simp
  · intro hnem
    rw [hv]
    simp [buildDenialBody, jsStr, hnem]

/-- Witness for `C7_wrong_command_denied_without_mutation`: submitting
`npm install` while step 1 (`git pull origin main`) is still pending. -/
theorem C7_wrong_command_witness :
    (validatePipelineStep deployTunnels inProgressState "run_1000" "npm install" 7).1.allowed
        = false ∧
    (validatePipelineStep deployTunnels inProgressState "run_1000" "npm install" 7).2
        = inProgressState ∧
    (validatePipelineStep deployTunnels inProgressState "run_1000" "npm install" 7).1.expected
        = some "git pull origin main" ∧
    (validatePipelineStep deployTunnels inProgressState "run_1000" "npm install" 7).1.received
        = some "npm install" ∧
    (submitPipelineStep deployTunnels inProgressState "run_1000" "npm install" 7).2
        = inProgressState ∧
    ("git pull origin main" ≠ "" →
      (buildDenialBody
          (validatePipelineStep deployTunnels inProgressState "run_1000" "npm install" 7).1
          "Deploy" "worker-1").expected_command = some "git pull origin main") := by
  have h := C7_wrong_command_denied_without_mutation deployTunnels inProgressState
    "run_1000" "npm install" "Deploy" "worker-1" 7 inProgressRun deployTunnel
    ({ steps := [ { command := "git pull origin main" }, { command := "npm install" } ] })
    { command := "git pull origin main" }
    (by decide) (by decide) (by decide) (by decide) (by decide) (by decide)
  exact h

theorem workerApiKey_ne_empty (t : Nat) (r : String) : workerApiKey t r ≠ "" := by
  intro h
  have hlen := congrArg String.length h
  rw [workerApiKey] at hlen
  rw [String.length_append, String.length_append, String.length_append] at hlen
  have h7 : ("worker_" : String).length = 7 := rfl
  have h0 : ("" : String).length = 0 := rfl
  omega

/-- Claim C2.  A credential issued by `POST /orchestrator/agents/create`
never authenticates: (a) the record the handler writes carries no `active`
member, so the middleware's `!keyData.active` check rejects it with
"API key has been revoked" wherever the record is found; (b) the record is
written into the gateway's top-level key map, while the authenticator looks
the header key up in the `keys` sub-object of its separately cached file —
so as long as the freshly generated key is absent from that sub-object, the
authenticator denies 401 "Invalid API key". -/
theorem C2_created_worker_key_never_authenticates
    (mwKeys : List (String × KeyData)) (u : Usage) (nowMs createMs : Nat)
    (offMs : Int) (rand agentName tunnelName : String) (dl : Option Nat)
    (hfresh : lookupA mwKeys (workerApiKey createMs rand) = none) :
    (workerKeyData agentName tunnelName dl createMs).active = none ∧
    (authenticate mwKeys u (some (workerApiKey createMs rand)) nowMs offMs).1 =
      .response 401 "Authentication failed" "Invalid API key" none none none ∧
    (∀ anyStore : List (String × KeyData),
      lookupA anyStore (workerApiKey createMs rand) =
          some (workerKeyData agentName tunnelName dl createMs) →
      validateApiKey anyStore (workerApiKey createMs rand) =
        .invalid "API key has been revoked") := by
  refine ⟨rfl, ?_, ?_⟩
  · unfold authenticate
    have hj : jsStr (some (workerApiKey createMs rand)) = some (workerApiKey createMs rand) := by
      simp [jsStr, workerApiKey_ne_empty createMs rand]
    rw [hj]
    dsimp only
    unfold validateApiKey
    rw [hfresh]
  · intro anyStore hIn
    unfold validateApiKey
    rw [hIn]
    dsimp only
    rfl

/-- Witness for `C2_created_worker_key_never_authenticates` at a concrete
creation instant and store. -/
theorem C2_witness :
    (workerKeyData "dep" "Deploy" none 1000).active = none ∧
    (authenticate [("key1", kdActive)] [] (some (workerApiKey 1000 "abc123")) 0 0).1 =
      .response 401 "Authentication failed" "Invalid API key" none none none ∧
    (∀ anyStore : List (String × KeyData),
      lookupA anyStore (workerApiKey 1000 "abc123") =
          some (workerKeyData "dep" "Deploy" none 1000) →
      validateApiKey anyStore (workerApiKey 1000 "abc123") =
        .invalid "API key has been revoked") := by
  exact C2_created_worker_key_never_authenticates [("key1", kdActive)] [] 0 1000 0
    "abc123" "dep" "Deploy" none (by decide)

/-- Characterization of the denied branch of `checkRateLimit`. -/
theorem checkRateLimit_denied (u : Usage) (k : String) (kd : KeyData)
    (nowMs : Nat) (offMs : Int)
    (hlim : usageCount u k (todayKey nowMs) ≥ kd.dailyLimit) :
    checkRateLimit u k kd nowMs offMs =
      ({ allowed := false, usage := usageCount u k (todayKey nowMs)
         limit := kd.dailyLimit
         resetAtMs := some (nextLocalMidnightMs nowMs offMs) },
       setUsage u k (todayKey nowMs) (usageCount u k (todayKey nowMs))) := by
  simp only [checkRateLimit]
  rw [usageCount_setUsage_self]
  rw [if_pos hlim]

/-- Claim C5 (amended).  When the key's usage count for the current UTC
calendar day has reached `dailyLimit`, the authenticator answers 429 with
`X-RateLimit-Limit` = the limit, `X-RateLimit-Remaining` = 0, and
`X-RateLimit-Reset` = the next midnight of the server's LOCAL timezone
(rendered in ISO-8601; it coincides with midnight UTC of the next day
exactly when the server's UTC offset is zero), and the usage counter is not
incremented on this path. -/
theorem C5_rate_limited_429
    (keys : List (String × KeyData)) (u : Usage) (k : String) (kd : KeyData)
    (nowMs : Nat) (offMs : Int)
    (hk : k ≠ "")
    (hkd : lookupA keys k = some kd)
    (hact : jsBool kd.active = true)
    (hlim : usageCount u k (todayKey nowMs) ≥ kd.dailyLimit) :
    (authenticate keys u (some k) nowMs offMs).1 =
      .response 429 "Rate limit exceeded" "Daily rate limit exceeded"
        (some kd.dailyLimit) (some 0) (some (nextLocalMidnightMs nowMs offMs)) ∧
    usageCount (authenticate keys u (some k) nowMs offMs).2 k (todayKey nowMs) =
      usageCount u k (todayKey nowMs) ∧
    (offMs = 0 → nextLocalMidnightMs nowMs 0 = nextUtcMidnightMs nowMs) := by
  have hj : jsStr (some k) = some k := by simp [jsStr, hk]
  have hval : validateApiKey keys k = .valid kd := by
    unfold validateApiKey
    rw [hkd]
    simp [hact]
  have hauth : authenticate keys u (some k) nowMs offMs =
      (.response 429 "Rate limit exceeded" "Daily rate limit exceeded"
        (some kd.dailyLimit) (some 0) (some (nextLocalMidnightMs nowMs offMs)),
       setUsage u k (todayKey nowMs) (usageCount u k (todayKey nowMs))) := by
    unfold authenticate
    rw [hj]
    dsimp only
    rw [hval]
    dsimp only
    rw [checkRateLimit_denied u k kd nowMs offMs hlim]
    dsimp only
    rfl
  refine ⟨by rw [hauth], ?_, ?_⟩
  · rw [hauth]
    exact usageCount_setUsage_self _ _ _ _
  · intro h0
    subst h0
    unfold nextLocalMidnightMs nextUtcMidnightMs
    simp

/-- Witness for `C5_rate_limited_429`: key `key1` (limit 5) has already made
5 requests on day 0; the server runs at UTC+1 (`offMs = 3600000`). -/
theorem C5_witness :
    (authenticate [("key1", kdActive)] [("key1", [(0, 5)])] (some "key1") 0 3600000).1 =
      .response 429 "Rate limit exceeded" "Daily rate limit exceeded"
        (some 5) (some 0) (some (nextLocalMidnightMs 0 3600000)) ∧
    usageCount (authenticate [("key1", kdActive)] [("key1", [(0, 5)])]
        (some "key1") 0 3600000).2 "key1" (todayKey 0) =
      usageCount [("key1", [(0, 5)])] "key1" (todayKey 0) ∧
    ((3600000 : Int) = 0 → nextLocalMidnightMs 0 0 = nextUtcMidnightMs 0) := by
  exact C5_rate_limited_429 [("key1", kdActive)] [("key1", [(0, 5)])] "key1" kdActive
    0 3600000 (by decide) (by decide) (by decide) (by decide)

/-- Claim C5 (counterexample to the claim as stated).  At `Date.now() = 0`
with the server at UTC+1, the 429 response's `X-RateLimit-Reset` instant is
`82800000` (23:00 UTC on day 1 — the next LOCAL midnight), not midnight UTC
of the next day (`86400000`): `setHours(24,0,0,0)` works in local time. -/
theorem C5_reset_header_not_utc_midnight :
    (authenticate [("key1", kdActive)] [("key1", [(0, 5)])] (some "key1") 0 3600000).1 =
      .response 429 "Rate limit exceeded" "Daily rate limit exceeded"
        (some 5) (some 0) (some 82800000) ∧
    nextUtcMidnightMs 0 = 86400000 ∧
    (82800000 : Int) ≠ 86400000 := by
  decide

/-- Claim C6.  For a non-pipeline POST/PUT request (no pipeline dispatch:
the tunnel has no pipeline, or the payload carries no truthy `run_id`) on a
strict-mode tunnel that passed the method and path checks: an empty
whitelist denies with "No commands allowed in strict mode"; otherwise the
extracted command passes the whitelist iff some whitelist entry `c`
satisfies `trim(command) = trim(c)` or `trim(command)` starts with
`trim(c) + " "`; failing that, the denial is
`Command '<cmd>' not in whitelist`; passing hands over to the keyword
check. -/
theorem C6_strict_whitelist
    (tunnels : TunnelMap) (runs : RunMap) (tunnelName method url : String)
    (p : Payload) (nowMs : Nat) (tunnel : Tunnel)
    (hT : lookupA tunnels tunnelName = some tunnel)
    (hstrict : tunnel.command_whitelist_mode = "strict")
    (hnp : tunnel.pipeline = none ∨ jsStr p.run_id = none)
    (hm : method = "POST" ∨ method = "PUT")
    (hmeth : (tunnel.allowed_methods.contains "*" ||
        tunnel.allowed_methods.contains method) = true)
    (hpath : tunnel.allowed_paths = [] ∨
        tunnel.allowed_paths.any (fun q => strStartsWith (cleanUrlOf url) q) = true) :
    (tunnel.allowed_commands = [] →
        (validateTunnel tunnels runs tunnelName method url (some p) nowMs).1 =
          vDeny "No commands allowed in strict mode") ∧
    (whitelistPass tunnel.allowed_commands (extractCommand p) = true ↔
        ∃ c ∈ tunnel.allowed_commands,
          strTrim (extractCommand p) = strTrim c ∨
          strStartsWith (strTrim (extractCommand p)) (strTrim c ++ " ") = true) ∧
    (tunnel.allowed_commands ≠ [] →
        whitelistPass tunnel.allowed_commands (extractCommand p) = false →
        (validateTunnel tunnels runs tunnelName method url (some p) nowMs).1 =
          vDeny ("Command '" ++ extractCommand p ++ "' not in whitelist")) ∧
    (tunnel.allowed_commands ≠ [] →
        whitelistPass tunnel.allowed_commands (extractCommand p) = true →
        (validateTunnel tunnels runs tunnelName method url (some p) nowMs).1 =
          keywordCheck tunnel.forbidden_keywords (extractCommand p)) := by
  have hVT : validateTunnel tunnels runs tunnelName method url (some p) nowMs =
      validateBody tunnels runs tunnel (some p) nowMs := by
    unfold validateTunnel
    rw [hT]
    dsimp only
    rw [if_neg (not_not_intro hmeth)]
    rw [if_neg (by rcases hpath with h | h <;> simp [h])]
    rw [if_pos hm]
  have hVB : validateBody tunnels runs tunnel (some p) nowMs =
      (if tunnel.allowed_commands = [] then
         (vDeny "No commands allowed in strict mode", runs)
       else if ¬ whitelistPass tunnel.allowed_commands (extractCommand p) then
         (vDeny ("Command '" ++ extractCommand p ++ "' not in whitelist"), runs)
       else (keywordCheck tunnel.forbidden_keywords (extractCommand p), runs)) := by
    unfold validateBody
    dsimp only
    rcases hnp with h | h
    · rw [h]
      dsimp only
      rw [if_pos hstrict]
    · rw [h]
      cases hpl : tunnel.pipeline <;> dsimp only <;> rw [if_pos hstrict]
  refine ⟨?_, ?_, ?_, ?_⟩
  · intro hempty
    rw [hVT, hVB, if_pos hempty]
  · simp only [whitelistPass, List.any_eq_true, Bool.or_eq_true, decide_eq_true_eq]
  · intro hne hfail
    rw [hVT, hVB, if_neg hne, if_pos (by simp [hfail])]
  · intro hne hpass
    rw [hVT, hVB, if_neg hne, if_neg (by simp [hpass])]

/-- Witness for `C6_strict_whitelist`: tunnel `DevOps` with whitelist
`["ls", "pwd"]`, request `{"command": "ls -la"}`. -/
theorem C6_witness :
    ((["ls", "pwd"] : List String) = [] →
        (validateTunnel
            [("DevOps", { allowed_methods := ["POST"], allowed_commands := ["ls", "pwd"]
                          command_whitelist_mode := "strict" })]
            [] "DevOps" "POST" "/" (some { command := some "ls -la" }) 0).1 =
          vDeny "No commands allowed in strict mode") ∧
    (whitelistPass ["ls", "pwd"] (extractCommand { command := some "ls -la" }) = true ↔
        ∃ c ∈ (["ls", "pwd"] : List String),
          strTrim (extractCommand { command := some "ls -la" }) = strTrim c ∨
          strStartsWith (strTrim (extractCommand { command := some "ls -la" }))
            (strTrim c ++ " ") = true) ∧
    ((["ls", "pwd"] : List String) ≠ [] →
        whitelistPass ["ls", "pwd"] (extractCommand { command := some "ls -la" }) = false →
        (validateTunnel
            [("DevOps", { allowed_methods := ["POST"], allowed_commands := ["ls", "pwd"]
                          command_whitelist_mode := "strict" })]
            [] "DevOps" "POST" "/" (some { command := some "ls -la" }) 0).1 =
          vDeny ("Command '" ++ extractCommand { command := some "ls -la" } ++
            "' not in whitelist")) ∧
    ((["ls", "pwd"] : List String) ≠ [] →
        whitelistPass ["ls", "pwd"] (extractCommand { command := some "ls -la" }) = true →
        (validateTunnel
            [("DevOps", { allowed_methods := ["POST"], allowed_commands := ["ls", "pwd"]
                          command_whitelist_mode := "strict" })]
            [] "DevOps" "POST" "/" (some { command := some "ls -la" }) 0).1 =
          keywordCheck [] (extractCommand { command := some "ls -la" })) := by
  exact C6_strict_whitelist
    [("DevOps", { allowed_methods := ["POST"], allowed_commands := ["ls", "pwd"]
                  command_whitelist_mode := "strict" })]
    [] "DevOps" "POST" "/" { command := some "ls -la" } 0
    { allowed_methods := ["POST"], allowed_commands := ["ls", "pwd"]
      command_whitelist_mode := "strict" }
    (by decide) rfl (Or.inl rfl) (Or.inl rfl) (by decide) (Or.inl rfl)

/-- Claim C9.  Authentication bypass happens exactly for `OPTIONS` requests
and `GET /status` (exact URL); for every other request the authenticator's
401 denials are exactly: falsy (missing or empty) `x-api-key` header →
"Missing x-api-key header"; key absent from the credential store →
"Invalid API key"; key present but `active` not truthy →
"API key has been revoked" — and no other message ever accompanies a
401 response. -/
theorem C9_auth_denial_enumeration :
    (∀ method url : String,
      bypassesAuth method url = true ↔ (method = "OPTIONS" ∨ url = "/status")) ∧
    (∀ (keys : List (String × KeyData)) (u : Usage) (header : Option String)
        (nowMs : Nat) (offMs : Int), jsStr header = none →
      (authenticate keys u header nowMs offMs).1 =
        .response 401 "Authentication required" "Missing x-api-key header"
          none none none) ∧
    (∀ (keys : List (String × KeyData)) (u : Usage) (k : String)
        (nowMs : Nat) (offMs : Int), k ≠ "" → lookupA keys k = none →
      (authenticate keys u (some k) nowMs offMs).1 =
        .response 401 "Authentication failed" "Invalid API key" none none none) ∧
    (∀ (keys : List (String × KeyData)) (u : Usage) (k : String) (kd : KeyData)
        (nowMs : Nat) (offMs : Int), k ≠ "" → lookupA keys k = some kd →
        jsBool kd.active = false →
      (authenticate keys u (some k) nowMs offMs).1 =
        .response 401 "Authentication failed" "API key has been revoked"
          none none none) ∧
    (∀ (keys : List (String × KeyData)) (u : Usage) (header : Option String)
        (nowMs : Nat) (offMs : Int) (e m : String) (l rem : Option Nat)
        (rst : Option Int),
      (authenticate keys u header nowMs offMs).1 = .response 401 e m l rem rst →
      m = "Missing x-api-key header" ∨ m = "Invalid API key" ∨
        m = "API key has been revoked") := by
  refine ⟨?_, ?_, ?_, ?_, ?_⟩
  · intro method url
    simp [bypassesAuth]
  · intro keys u header nowMs offMs hj
    unfold authenticate
    rw [hj]
  · intro keys u k nowMs offMs hk hnone
    have hj : jsStr (some k) = some k := by simp [jsStr, hk]
    unfold authenticate
    rw [hj]
    dsimp only
    unfold validateApiKey
    rw [hnone]
  · intro keys u k kd nowMs offMs hk hkd hact
    have hj : jsStr (some k) = some k := by simp [jsStr, hk]
    unfold authenticate
    rw [hj]
    dsimp only
    unfold validateApiKey
    rw [hkd]
    dsimp only
    rw [if_pos (by simp [hact])]
  · intro keys u header nowMs offMs e m l rem rst hresp
    unfold authenticate at hresp
    cases hj : jsStr header with
    | none =>
        rw [hj] at hresp
        simp only [AuthResult.response.injEq] at hresp
        exact Or.inl hresp.2.2.1.symm
    | some k =>
        rw [hj] at hresp
        dsimp only at hresp
        cases hval : validateApiKey keys k with
        | invalid err =>
            rw [hval] at hresp
            simp only [AuthResult.response.injEq] at hresp
            unfold validateApiKey at hval
            cases hkd : lookupA keys k with
            | none =>
                rw [hkd] at hval
                simp only [KeyValidation.invalid.injEq] at hval
                exact Or.inr (Or.inl (by rw [← hresp.2.2.1, ← hval]))
            | some kd =>
                rw [hkd] at hval
                dsimp only at hval
                by_cases hact : jsBool kd.active
                · rw [if_neg (by simp [hact])] at hval
                  exact absurd hval (by simp)
                · rw [if_pos hact] at hval
                  simp only [KeyValidation.invalid.injEq] at hval
                  exact Or.inr (Or.inr (by rw [← hresp.2.2.1, ← hval]))
        | valid kd =>
            rw [hval] at hresp
            dsimp only at hresp
            by_cases hallow : (checkRateLimit u k kd nowMs offMs).1.allowed
            · rw [if_neg (by simp [hallow])] at hresp
              exact absurd hresp (by simp)
            · rw [if_pos (by simpa using hallow)] at hresp
              simp only [AuthResult.response.injEq] at hresp
              omega

/-- Witness for `C9_auth_denial_enumeration` at concrete requests. -/
theorem C9_witness :
    (bypassesAuth "OPTIONS" "/x" = true ↔ ("OPTIONS" = "OPTIONS" ∨ "/x" = "/status")) ∧
    (authenticate [("key1", kdActive)] [] none 0 0).1 =
      .response 401 "Authentication required" "Missing x-api-key header" none none none ∧
    (authenticate [("key1", kdActive)] [] (some "nope") 0 0).1 =
      .response 401 "Authentication failed" "Invalid API key" none none none ∧
    (authenticate [("key1", kdRevoked)] [] (some "key1") 0 0).1 =
      .response 401 "Authentication failed" "API key has been revoked" none none none := by
  refine ⟨C9_auth_denial_enumeration.1 "OPTIONS" "/x", ?_, ?_, ?_⟩
  · exact C9_auth_denial_enumeration.2.1 [("key1", kdActive)] [] none 0 0 (by decide)
  · exact C9_auth_denial_enumeration.2.2.1 [("key1", kdActive)] [] "nope" 0 0
      (by decide) (by decide)
  · exact C9_auth_denial_enumeration.2.2.2.1 [("key1", kdRevoked)] [] "key1" kdRevoked 0 0
      (by decide) (by decide) (by decide)

/-- Claim C10.  `POST /orchestrator/tunnels/create` with a (truthy) name and
all policy fields omitted creates a tunnel defaulting to
`allowed_methods = ["GET","POST"]`, `allowed_paths = []`,
`allowed_commands = []`, `forbidden_keywords = []`,
`command_whitelist_mode = "strict"`, with `pipeline` present exactly when
the payload supplied one; the handler persists the tunnel store
(synchronously, `saveTunnels()`) strictly before emitting the 201
response. -/
theorem C10_tunnels_create_defaults
    (tunnels : TunnelMap) (p : CreatePayload) (name : String) (nowMs : Nat)
    (hname : jsStr p.name = some name)
    (hm : p.allowed_methods = none)
    (hp : p.allowed_paths = none)
    (hc : p.allowed_commands = none)
    (hk : p.forbidden_keywords = none) :
    ∃ t : Tunnel,
      handleTunnelsCreate tunnels (some p) nowMs =
        (setA tunnels name t,
         [.persistTunnels (setA tunnels name t), .respond 201]) ∧
      t.allowed_methods = ["GET", "POST"] ∧
      t.allowed_paths = [] ∧
      t.allowed_commands = [] ∧
      t.forbidden_keywords = [] ∧
      t.command_whitelist_mode = "strict" ∧
      t.pipeline = p.pipeline ∧
      lookupA (setA tunnels name t) name = some t := by
  refine ⟨{ description := (jsStr p.description).getD ("Worker tunnel: " ++ name)
            allowed_methods := ["GET", "POST"]
            allowed_paths := []
            forbidden_keywords := []
            allowed_commands := []
            command_whitelist_mode := "strict"
            pipeline := p.pipeline
            created_by := some "orchestrator"
            created_at := some nowMs }, ?_, rfl, rfl, rfl, rfl, rfl, rfl, ?_⟩
  · unfold handleTunnelsCreate
    dsimp only
    rw [hname, hm, hp, hc, hk]
    rfl
  · exact lookupA_setA_self _ _ _

/-- Witness for `C10_tunnels_create_defaults`: payload `{"name":"DataAgent"}`. -/
theorem C10_witness :
    ∃ t : Tunnel,
      handleTunnelsCreate [] (some { name := some "DataAgent" }) 42 =
        (setA [] "DataAgent" t,
         [.persistTunnels (setA [] "DataAgent" t), .respond 201]) ∧
      t.allowed_methods = ["GET", "POST"] ∧
      t.allowed_paths = [] ∧
      t.allowed_commands = [] ∧
      t.forbidden_keywords = [] ∧
      t.command_whitelist_mode = "strict" ∧
      t.pipeline = ({ name := some "DataAgent" } : CreatePayload).pipeline ∧
      lookupA (setA [] "DataAgent" t) "DataAgent" = some t := by
  exact C10_tunnels_create_defaults [] { name := some "DataAgent" } "DataAgent" 42
    (by decide) rfl rfl rfl rfl

/-! ### Claim C8: the run-store transition system -/

/-- The operations that mutate the pipeline run store: an orchestrator
`pipeline/start`, a worker step submission (validate, then confirm iff
allowed), and an orchestrator `pipeline/reset`. -/
inductive Op
  | start (pipelineName agentName : String) (nowMs : Nat)
  | submit (runId command : String) (nowMs : Nat)
  | reset (runId : String) (nowMs : Nat)

/-- One operation applied to the run store (tunnel config fixed). -/
def stepOp (tunnels : TunnelMap) (st : RunMap) : Op → RunMap
  | .start p a t =>
      match startPipelineRun tunnels st p a t with
      | some (_, st') => st'
      | none => st
  | .submit rid cmd t => (submitPipelineStep tunnels st rid cmd t).2
  | .reset rid t => resetPipelineRun st rid t

/-- The per-run invariant of claim C8: `current_step` counts the confirmed
steps, never exceeds the pipeline length, and equals it whenever the run is
`completed`. -/
def RunInv (tunnels : TunnelMap) (r : Run) : Prop :=
  r.current_step = r.steps_completed.length ∧
  ∃ tun p, lookupA tunnels r.pipeline = some tun ∧ tun.pipeline = some p ∧
    r.current_step ≤ p.steps.length ∧
    (r.status = "completed" → r.current_step = p.steps.length)

def StoreInv (tunnels : TunnelMap) (st : RunMap) : Prop :=
  ∀ rid r, lookupA st rid = some r → RunInv tunnels r

theorem StoreInv_setA {tunnels : TunnelMap} {st : RunMap} {rid : String} {r : Run}
    (h : StoreInv tunnels st) (hr : RunInv tunnels r) :
    StoreInv tunnels (setA st rid r) := by
  intro rid' r' hlook
  by_cases he : rid = rid'
  · subst he
    rw [lookupA_setA_self] at hlook
    cases hlook
    exact hr
  · rw [lookupA_setA_ne _ _ _ _ he] at hlook
    exact h _ _ hlook

/-- Characterization of an ALLOWED `validatePipelineStep`: the run exists,
is neither completed nor failed, its pipeline still exists, the expected
step exists and the trimmed commands agree; and validation leaves the
store untouched. -/
theorem validate_allowed_spec {tunnels : TunnelMap} {st : RunMap}
    {rid cmd : String} {t : Nat}
    (h : (validatePipelineStep tunnels st rid cmd t).1.allowed = true) :
    ∃ r tun p est, lookupA st rid = some r ∧
      r.status ≠ "completed" ∧ r.status ≠ "failed" ∧
      lookupA tunnels r.pipeline = some tun ∧ tun.pipeline = some p ∧
      p.steps.get? r.current_step = some est ∧
      strTrim cmd = strTrim est.command ∧
      validatePipelineStep tunnels st rid cmd t =
        ({ allowed := true, step := some est, stepIndex := some r.current_step }, st) := by
  unfold validatePipelineStep at h ⊢
  cases hre : lookupA st rid with
  | none => rw [hre] at h; exact absurd h (by simp [vDeny])
  | some r =>
      rw [hre] at h
      dsimp only at h
      by_cases hc : r.status = "completed"
      · rw [if_pos hc] at h; exact absurd h (by simp [vDeny])
      · rw [if_neg hc] at h
        by_cases hf : r.status = "failed"
        · rw [if_pos hf] at h; exact absurd h (by simp [vDeny])
        · rw [if_neg hf] at h
          cases hb : (lookupA tunnels r.pipeline).bind (fun tn => tn.pipeline) with
          | none => rw [hb] at h; exact absurd h (by simp [vDeny])
          | some p =>
              rw [hb] at h
              dsimp only at h
              cases hest : p.steps.get? r.current_step with
              | none => rw [hest] at h; exact absurd h (by simp [vDeny])
              | some est =>
                  rw [hest] at h
                  dsimp only at h
                  by_cases htr : strTrim cmd ≠ strTrim est.command
                  · rw [if_pos htr] at h; exact absurd h (by simp)
                  · obtain ⟨tun, htun, hpl⟩ :
                        ∃ tun, lookupA tunnels r.pipeline = some tun ∧
                          tun.pipeline = some p := by
                      cases htn : lookupA tunnels r.pipeline with
                      | none => rw [htn] at hb; exact absurd hb (by simp)
                      | some tun =>
                          rw [htn] at hb
                          exact ⟨tun, rfl, by simpa using hb⟩
                    refine ⟨r, tun, p, est, rfl, hc, hf, htun, hpl, hest,
                      not_ne_iff.mp htr, ?_⟩
                    dsimp only
                    rw [if_neg hc, if_neg hf, hb]
                    dsimp only
                    rw [hest]
                    dsimp only
                    rw [if_neg htr]

/-- Every NON-allowed `validatePipelineStep` either leaves the store
unchanged or performs the all-steps-done coercion, which only rewrites the
run's status to `completed` (and stamps `completed_at`). -/
theorem validate_store_spec (tunnels : TunnelMap) (st : RunMap)
    (rid cmd : String) (t : Nat) :
    (validatePipelineStep tunnels st rid cmd t).2 = st ∨
    (∃ r tun p, lookupA st rid = some r ∧
      r.status ≠ "completed" ∧ r.status ≠ "failed" ∧
      lookupA tunnels r.pipeline = some tun ∧ tun.pipeline = some p ∧
      p.steps.get? r.current_step = none ∧
      (validatePipelineStep tunnels st rid cmd t).1.allowed = false ∧
      (validatePipelineStep tunnels st rid cmd t).2 =
        setA st rid { r with status := "completed", completed_at := some t }) := by
  unfold validatePipelineStep
  cases hre : lookupA st rid with
  | none => exact Or.inl rfl
  | some r =>
      dsimp only
      by_cases hc : r.status = "completed"
      · rw [if_pos hc]; exact Or.inl rfl
      · rw [if_neg hc]
        by_cases hf : r.status = "failed"
        · rw [if_pos hf]; exact Or.inl rfl
        · rw [if_neg hf]
          cases hb : (lookupA tunnels r.pipeline).bind (fun tn => tn.pipeline) with
          | none => exact Or.inl rfl
          | some p =>
              dsimp only
              cases hest : p.steps.get? r.current_step with
              | none =>
                  dsimp only
                  obtain ⟨tun, htun, hpl⟩ :
                      ∃ tun, lookupA tunnels r.pipeline = some tun ∧
                        tun.pipeline = some p := by
                    cases htn : lookupA tunnels r.pipeline with
                    | none => rw [htn] at hb; exact absurd hb (by simp)
                    | some tun =>
                        rw [htn] at hb
                        exact ⟨tun, rfl, by simpa using hb⟩
                  refine Or.inr ⟨r, tun, p, rfl, hc, hf, htun, hpl, hest, ?_, ?_⟩
                  · simp [vDeny]
                  · rfl
              | some est =>
                  dsimp only
                  by_cases htr : strTrim cmd ≠ strTrim est.command
                  · rw [if_pos htr]; exact Or.inl rfl
                  · rw [if_neg htr]; exact Or.inl rfl

/-- The run record produced by `confirmPipelineStep` for run `r` whose
expected step is `est` in pipeline `p`. -/
def confirmedRun (r : Run) (p : PipelineDef) (est : StepDef) (t : Nat) : Run :=
  let run' : Run :=
    { r with
      steps_completed := r.steps_completed ++
        [{ step := r.current_step + 1, command := est.command, confirmed_at := t }]
      current_step := r.current_step + 1 }
  if run'.current_step ≥ p.steps.length then
    { run' with status := "completed", completed_at := some t }
  else run'

theorem confirm_spec {tunnels : TunnelMap} {st : RunMap} {rid : String} {t : Nat}
    {r : Run} {tun : Tunnel} {p : PipelineDef} {est : StepDef}
    (hre : lookupA st rid = some r)
    (htun : lookupA tunnels r.pipeline = some tun)
    (hpl : tun.pipeline = some p)
    (hest : p.steps.get? r.current_step = some est) :
    confirmPipelineStep tunnels st rid t = some (setA st rid (confirmedRun r p est t)) := by
  unfold confirmPipelineStep
  rw [hre]
  dsimp only
  rw [htun]
  dsimp only [Option.bind]
  rw [hpl]
  dsimp only
  rw [hest]
  rfl

theorem submit_allowed_spec {tunnels : TunnelMap} {st : RunMap}
    {rid cmd : String} {t : Nat}
    (h : (validatePipelineStep tunnels st rid cmd t).1.allowed = true) :
    ∃ r tun p est, lookupA st rid = some r ∧
      r.status ≠ "completed" ∧ r.status ≠ "failed" ∧
      lookupA tunnels r.pipeline = some tun ∧ tun.pipeline = some p ∧
      p.steps.get? r.current_step = some est ∧
      strTrim cmd = strTrim est.command ∧
      (submitPipelineStep tunnels st rid cmd t).2 =
        setA st rid (confirmedRun r p est t) := by
  obtain ⟨r, tun, p, est, hre, hc, hf, htun, hpl, hest, htr, heq⟩ :=
    validate_allowed_spec h
  refine ⟨r, tun, p, est, hre, hc, hf, htun, hpl, hest, htr, ?_⟩
  unfold submitPipelineStep
  rw [heq]
  dsimp only
  rw [if_pos rfl]
  rw [confirm_spec hre htun hpl hest]
  rfl

theorem submit_not_allowed {tunnels : TunnelMap} {st : RunMap}
    {rid cmd : String} {t : Nat}
    (h : (validatePipelineStep tunnels st rid cmd t).1.allowed = false) :
    (submitPipelineStep tunnels st rid cmd t).2 =
      (validatePipelineStep tunnels st rid cmd t).2 := by
  unfold submitPipelineStep
  cases hv : validatePipelineStep tunnels st rid cmd t with
  | mk v st₁ =>
      rw [hv] at h
      dsimp only at h
      dsimp only
      rw [if_neg (by simp [h])]

theorem startPipelineRun_tunnel {tunnels : TunnelMap} {st : RunMap}
    {p a : String} {t : Nat} {rid : String} {st' : RunMap}
    (h : startPipelineRun tunnels st p a t = some (rid, st')) :
    ∃ tun q, lookupA tunnels p = some tun ∧ tun.pipeline = some q := by
  unfold startPipelineRun at h
  cases hT : lookupA tunnels p with
  | none => rw [hT] at h; exact absurd h (by simp)
  | some tun =>
      rw [hT] at h
      dsimp only at h
      cases hP : tun.pipeline with
      | none => rw [hP] at h; exact absurd h (by simp)
      | some q => exact ⟨tun, q, rfl, hP⟩

theorem get?_some_lt {α : Type} : ∀ (l : List α) (n : Nat) (a : α),
    l.get? n = some a → n < l.length := by
  intro l
  induction l with
  | nil => intro n a h; simp [List.get?] at h
  | cons x xs ih =>
      intro n a h
      cases n with
      | zero => simp [List.length]
      | succ m =>
          simp only [List.get?] at h
          have := ih m a h
          simp [List.length]
          omega

theorem get?_none_le {α : Type} : ∀ (l : List α) (n : Nat),
    l.get? n = none → l.length ≤ n := by
  intro l
  induction l with
  | nil => intro n _; simp [List.length]
  | cons x xs ih =>
      intro n h
      cases n with
      | zero => simp [List.get?] at h
      | succ m =>
          simp only [List.get?] at h
          have := ih m h
          simp [List.length]
          omega

theorem confirmedRun_fields (r : Run) (p : PipelineDef) (est : StepDef) (t : Nat) :
    (confirmedRun r p est t).current_step = r.current_step + 1 ∧
    (confirmedRun r p est t).steps_completed = r.steps_completed ++
      [{ step := r.current_step + 1, command := est.command, confirmed_at := t }] ∧
    (confirmedRun r p est t).pipeline = r.pipeline ∧
    (r.current_step + 1 ≥ p.steps.length →
      (confirmedRun r p est t).status = "completed") ∧
    (¬ r.current_step + 1 ≥ p.steps.length →
      (confirmedRun r p est t).status = r.status) := by
  unfold confirmedRun
  dsimp only
  by_cases hthr : r.current_step + 1 ≥ p.steps.length
  · rw [if_pos hthr]
    exact ⟨rfl, rfl, rfl, fun _ => rfl, fun hn => absurd hthr hn⟩
  · rw [if_neg hthr]
    exact ⟨rfl, rfl, rfl, fun hy => absurd hy hthr, fun _ => rfl⟩

/-- Claim C8.  With the tunnel configuration fixed, for any run store
satisfying the invariant (`current_step = len(steps_completed)`, bounded by
the pipeline length, and equal to it on `completed` runs):
(1) every gateway operation — StartRun, a worker step submission, or a
reset — preserves the invariant; (2) StartRun establishes a fresh run with
`current_step = 0`, empty `steps_completed`, status `in_progress`;
(3) an allowed submission appends exactly one completion record (numbered
`current_step + 1`) and increments `current_step` by exactly one;
(4) whenever a submission turns a run's status to `completed`, the run's
`current_step` equals `len(pipeline.steps)` at that moment;
(5) submissions never regress a run: `current_step` never decreases,
`steps_completed` only grows by appending, and a non-`in_progress` status
never returns to `in_progress`; (6) a reset only rewrites the status to
`aborted` (stamping `aborted_at`), leaving the progress fields intact. -/
theorem C8_run_store_invariants (tunnels : TunnelMap) (st : RunMap)
    (hInv : StoreInv tunnels st) :
    (∀ op : Op, StoreInv tunnels (stepOp tunnels st op)) ∧
    (∀ p a t rid st', startPipelineRun tunnels st p a t = some (rid, st') →
      lookupA st' rid = some
        { pipeline := p, agent := a, started_at := t, current_step := 0
          status := "in_progress", steps_completed := [] }) ∧
    (∀ rid cmd t, (validatePipelineStep tunnels st rid cmd t).1.allowed = true →
      ∃ r r', lookupA st rid = some r ∧
        lookupA (stepOp tunnels st (.submit rid cmd t)) rid = some r' ∧
        r'.current_step = r.current_step + 1 ∧
        ∃ rec : CompletedStep, rec.step = r.current_step + 1 ∧
          r'.steps_completed = r.steps_completed ++ [rec]) ∧
    (∀ rid cmd t r r', lookupA st rid = some r →
      lookupA (stepOp tunnels st (.submit rid cmd t)) rid = some r' →
      r.status ≠ "completed" → r'.status = "completed" →
      ∃ tun p, lookupA tunnels r'.pipeline = some tun ∧ tun.pipeline = some p ∧
        r'.current_step = p.steps.length) ∧
    (∀ rid cmd t r, lookupA st rid = some r →
      ∃ r', lookupA (stepOp tunnels st (.submit rid cmd t)) rid = some r' ∧
        r.current_step ≤ r'.current_step ∧
        (∃ l, r'.steps_completed = r.steps_completed ++ l) ∧
        (r.status ≠ "in_progress" → r'.status ≠ "in_progress")) ∧
    (∀ rid t r, lookupA st rid = some r →
      lookupA (stepOp tunnels st (.reset rid t)) rid = some
        { r with status := "aborted", aborted_at := some t }) := by
  have hConfInv : ∀ (r : Run) (tun : Tunnel) (p : PipelineDef) (est : StepDef) (t : Nat),
      RunInv tunnels r →
      r.status ≠ "completed" →
      lookupA tunnels r.pipeline = some tun → tun.pipeline = some p →
      p.steps.get? r.current_step = some est →
      RunInv tunnels (confirmedRun r p est t) := by
    intro r tun p est t hr hnc htun hpl hest
    obtain ⟨hcount, tun', p', htun', hpl', hle, hcompl⟩ := hr
    rw [htun] at htun'
    have htt : tun = tun' := Option.some.inj htun'
    subst htt
    rw [hpl] at hpl'
    have hpp : p = p' := Option.some.inj hpl'
    subst hpp
    have hlt : r.current_step < p.steps.length := get?_some_lt _ _ _ hest
    obtain ⟨hcs, hsc, hpipe, hcompY, hcompN⟩ := confirmedRun_fields r p est t
    refine ⟨?_, tun, p, by rw [hpipe]; exact htun, hpl, ?_, ?_⟩
    · rw [hcs, hsc, List.length_append, hcount]
      rfl
    · rw [hcs]; omega
    · intro hstat
      by_cases hthr : r.current_step + 1 ≥ p.steps.length
      · rw [hcs]; omega
      · rw [hcompN hthr] at hstat
        exact absurd hstat hnc
  have hCoerceInv : ∀ (r : Run) (tun : Tunnel) (p : PipelineDef) (t : Nat),
      RunInv tunnels r →
      lookupA tunnels r.pipeline = some tun → tun.pipeline = some p →
      p.steps.get? r.current_step = none →
      RunInv tunnels { r with status := "completed", completed_at := some t } := by
    intro r tun p t hr htun hpl hnone
    obtain ⟨hcount, tun', p', htun', hpl', hle, hcompl⟩ := hr
    rw [htun] at htun'
    have htt : tun = tun' := Option.some.inj htun'
    subst htt
    rw [hpl] at hpl'
    have hpp : p = p' := Option.some.inj hpl'
    subst hpp
    have hge : p.steps.length ≤ r.current_step := get?_none_le _ _ hnone
    exact ⟨hcount, tun, p, htun, hpl, hle, fun _ => by dsimp only; omega⟩
  refine ⟨?_, ?_, ?_, ?_, ?_, ?_⟩
  · -- (1) invariant preservation
    intro op
    cases op with
    | start p a t =>
        dsimp only [stepOp]
        cases hs : startPipelineRun tunnels st p a t with
        | none => exact hInv
        | some pr =>
            obtain ⟨rid, st'⟩ := pr
            obtain ⟨hrid, hst⟩ := startPipelineRun_eq_some hs
            obtain ⟨tun, q, htun, hq⟩ := startPipelineRun_tunnel hs
            rw [hst]
            refine StoreInv_setA hInv ⟨rfl, tun, q, htun, hq, Nat.zero_le _, ?_⟩
            intro habs
            exact absurd (show ("in_progress" : String) = "completed" from habs) (by decide)
    | submit rid cmd t =>
        dsimp only [stepOp]
        by_cases hall : (validatePipelineStep tunnels st rid cmd t).1.allowed = true
        · obtain ⟨r, tun, p, est, hre, hc, hf, htun, hpl, hest, htr, hsub⟩ :=
            submit_allowed_spec hall
          rw [hsub]
          exact StoreInv_setA hInv (hConfInv r tun p est t (hInv _ _ hre) hc htun hpl hest)
        · have hall2 : (validatePipelineStep tunnels st rid cmd t).1.allowed = false := by
            simpa using hall
          rw [submit_not_allowed hall2]
          rcases validate_store_spec tunnels st rid cmd t with hunch |
            ⟨r, tun, p, hre, hc, hf, htun, hpl, hnone, _, hcoerce⟩
          · rw [hunch]; exact hInv
          · rw [hcoerce]
            exact StoreInv_setA hInv (hCoerceInv r tun p t (hInv _ _ hre) htun hpl hnone)
    | reset rid t =>
        dsimp only [stepOp]
        unfold resetPipelineRun
        cases hre : lookupA st rid with
        | none => exact hInv
        | some r =>
            dsimp only
            obtain ⟨hcount, tun, p, htun, hpl, hle, hcompl⟩ := hInv _ _ hre
            refine StoreInv_setA hInv ⟨hcount, tun, p, htun, hpl, hle, ?_⟩
            intro habs
            exact absurd (show ("aborted" : String) = "completed" from habs) (by decide)
  · -- (2) StartRun establishes the fresh run
    intro p a t rid st' hs
    obtain ⟨hrid, hst⟩ := startPipelineRun_eq_some hs
    rw [hst]
    exact lookupA_setA_self _ _ _
  · -- (3) an allowed submission appends one record and increments by one
    intro rid cmd t hall
    obtain ⟨r, tun, p, est, hre, hc, hf, htun, hpl, hest, htr, hsub⟩ :=
      submit_allowed_spec hall
    obtain ⟨hcs, hsc, _, _, _⟩ := confirmedRun_fields r p est t
    refine ⟨r, confirmedRun r p est t, hre, ?_, hcs,
      { step := r.current_step + 1, command := est.command, confirmed_at := t },
      rfl, hsc⟩
    dsimp only [stepOp]
    rw [hsub]
    exact lookupA_setA_self _ _ _
  · -- (4) status becomes completed exactly at the pipeline length
    intro rid cmd t r r' hre hre' hnc hcomp
    by_cases hall : (validatePipelineStep tunnels st rid cmd t).1.allowed = true
    · obtain ⟨r₀, tun, p, est, hre₀, hc, hf, htun, hpl, hest, htr, hsub⟩ :=
        submit_allowed_spec hall
      rw [hre] at hre₀
      have hrr : r = r₀ := Option.some.inj hre₀
      subst hrr
      dsimp only [stepOp] at hre'
      rw [hsub, lookupA_setA_self] at hre'
      have hr' : r' = confirmedRun r p est t := (Option.some.inj hre').symm
      subst hr'
      obtain ⟨hcs, hsc, hpipe, hcompY, hcompN⟩ := confirmedRun_fields r p est t
      have hlt : r.current_step < p.steps.length := get?_some_lt _ _ _ hest
      by_cases hthr : r.current_step + 1 ≥ p.steps.length
      · exact ⟨tun, p, by rw [hpipe]; exact htun, hpl, by rw [hcs]; omega⟩
      · rw [hcompN hthr] at hcomp
        exact absurd hcomp hnc
    · have hall2 : (validatePipelineStep tunnels st rid cmd t).1.allowed = false := by
        simpa using hall
      dsimp only [stepOp] at hre'
      rw [submit_not_allowed hall2] at hre'
      rcases validate_store_spec tunnels st rid cmd t with hunch |
        ⟨r₀, tun, p, hre₀, hc, hf, htun, hpl, hnone, _, hcoerce⟩
      · rw [hunch, hre] at hre'
        have : r' = r := (Option.some.inj hre').symm
        subst this
        exact absurd hcomp hnc
      · rw [hre] at hre₀
        have hrr : r = r₀ := Option.some.inj hre₀
        subst hrr
        rw [hcoerce, lookupA_setA_self] at hre'
        have hr' : r' = { r with status := "completed", completed_at := some t } :=
          (Option.some.inj hre').symm
        subst hr'
        obtain ⟨hcount, tun', p', htun', hpl', hle, hcompl⟩ := hInv _ _ hre
        rw [htun] at htun'
        have htt : tun = tun' := Option.some.inj htun'
        subst htt
        rw [hpl] at hpl'
        have hpp : p = p' := Option.some.inj hpl'
        subst hpp
        have hge : p.steps.length ≤ r.current_step := get?_none_le _ _ hnone
        exact ⟨tun, p, htun, hpl, by dsimp only; omega⟩
  · -- (5) submissions never regress a run
    intro rid cmd t r hre
    by_cases hall : (validatePipelineStep tunnels st rid cmd t).1.allowed = true
    · obtain ⟨r₀, tun, p, est, hre₀, hc, hf, htun, hpl, hest, htr, hsub⟩ :=
        submit_allowed_spec hall
      rw [hre] at hre₀
      have hrr : r = r₀ := Option.some.inj hre₀
      subst hrr
      obtain ⟨hcs, hsc, hpipe, hcompY, hcompN⟩ := confirmedRun_fields r p est t
      refine ⟨confirmedRun r p est t, ?_, by rw [hcs]; omega,
        ⟨[{ step := r.current_step + 1, command := est.command, confirmed_at := t }], hsc⟩,
        ?_⟩
      · dsimp only [stepOp]
        rw [hsub]
        exact lookupA_setA_self _ _ _
      · intro hnp
        by_cases hthr : r.current_step + 1 ≥ p.steps.length
        · rw [hcompY hthr]
          decide
        · rw [hcompN hthr]
          exact hnp
    · have hall2 : (validatePipelineStep tunnels st rid cmd t).1.allowed = false := by
        simpa using hall
      rcases validate_store_spec tunnels st rid cmd t with hunch |
        ⟨r₀, tun, p, hre₀, hc, hf, htun, hpl, hnone, _, hcoerce⟩
      · refine ⟨r, ?_, le_refl _, ⟨[], by rw [List.append_nil]⟩, fun h => h⟩
        dsimp only [stepOp]
        rw [submit_not_allowed hall2, hunch]
        exact hre
      · rw [hre] at hre₀
        have hrr : r = r₀ := Option.some.inj hre₀
        subst hrr
        refine ⟨{ r with status := "completed", completed_at := some t }, ?_,
          le_refl _, ⟨[], by rw [List.append_nil]⟩, fun _ habs =>
            absurd (show ("completed" : String) = "in_progress" from habs) (by decide)⟩
        dsimp only [stepOp]
        rw [submit_not_allowed hall2, hcoerce]
        exact lookupA_setA_self _ _ _
  · -- (6) reset only rewrites the status
    intro rid t r hre
    dsimp only [stepOp]
    unfold resetPipelineRun
    rw [hre]
    dsimp only
    exact lookupA_setA_self _ _ _

/-- Witness for `C8_run_store_invariants`: the empty store over the `Deploy`
fixture satisfies the invariant, and starting a run yields the fresh
record. -/
theorem C8_witness :
    lookupA (stepOp deployTunnels [] (.start "Deploy" "worker-1" 1000)) "run_1000" =
      some { pipeline := "Deploy", agent := "worker-1", started_at := 1000
             current_step := 0, status := "in_progress", steps_completed := [] } := by
  have hInv : StoreInv deployTunnels [] := by
    intro rid r h
    simp [lookupA] at h
  have h := (C8_run_store_invariants deployTunnels [] hInv).2.1
    "Deploy" "worker-1" 1000 "run_1000"
    (setA [] "run_1000"
      { pipeline := "Deploy", agent := "worker-1", started_at := 1000
        current_step := 0, status := "in_progress", steps_completed := [] })
    (by decide)
  dsimp only [stepOp]
  rw [show startPipelineRun deployTunnels [] "Deploy" "worker-1" 1000 =
    some ("run_1000", setA [] "run_1000"
      { pipeline := "Deploy", agent := "worker-1", started_at := 1000
        current_step := 0, status := "in_progress", steps_completed := [] }) from by decide]
  exact h
